import Mathlib

/-!
# janus: the transaction-lookup transformer (`pkg/transformer/gettransaction.go`)

A shallow embedding of `Manager.GetTransactionByHash` (the request rewriter) and
`Manager.GettransactionResp` (the response reconstructor).

Conventions of the embedding

* A Go result pair `(T, error)` of a collaborator is an `Except GoError T`: the
  collaborator either reports an error or hands back a value.  The pair that
  `GettransactionResp` itself returns is kept as a pair of options (`Outcome.obj`,
  `Outcome.err`), so that "an object or an error, never both" is a statement to be
  proved and not a property of the type.
* Everything the file calls but does not define (go-simplejson, the `qtum` package,
  `hexutil`, the helpers of `util.go`, the backend client) is a field of `Lib` or of
  `Manager`: the theorems quantify over every behaviour of these collaborators.
* The calls made to the backend client and to the script parsers are recorded, in
  order, in `Outcome.calls`; this is how "is never inspected" and "no receipt fetch is
  attempted" are stated.
-/

namespace Janus

/-- Go `error` values as this file builds them: `errors.New msg`, and
`errors.Wrap cause msg` of github.com/pkg/errors applied to a non-nil cause.
Collaborators may report any such value. -/
inductive GoError where
  | New (msg : String)
  | Wrap (cause : GoError) (msg : String)
deriving DecidableEq, Repr

/-- The bytes of a `json.RawMessage`. -/
abbrev RawMessage := String

/-- The two fields of `rpc.JSONRPCRequest` that the transformer reads and overwrites. -/
structure JSONRPCRequest where
  Method : String
  Params : RawMessage
deriving DecidableEq, Repr

/-- The `ScriptPubKey` of a decoded output: its type tag (`Type` in Go) and its script. -/
structure ScriptPubKey where
  Typ : String
  Asm : String
deriving DecidableEq, Repr

/-- One element of `tx.Vout`. -/
structure Vout where
  ScriptPubKey : ScriptPubKey
deriving DecidableEq, Repr

/-- The result of `DecodeRawTransaction`, as far as the transformer reads it. -/
structure DecodedRawTransaction where
  Vout : List Vout
deriving DecidableEq, Repr

/-- The local interface `asmWithGasGasPriceEncodedABI`: a parsed script seen through its
three accessors.  The accessors take no argument, so each is given by its result. -/
structure AsmWithGasGasPriceEncodedABI where
  GetEncodedABI : String
  GetGasPrice : Except GoError Int
  GetGasLimit : Except GoError Int

/-- The fields of the receipt that the transformer reads (`BlockNumber` and
`TransactionIndex` are `uint64` in Go). -/
structure TransactionReceipt where
  BlockNumber : Nat
  TransactionIndex : Nat
  From : String
  ContractAddress : String
deriving DecidableEq, Repr

/-- The record `eth.TransactionResponse`; a field the code does not set keeps Go's zero
value, the empty string. -/
structure TransactionResponse where
  Hash : String := ""
  BlockHash : String := ""
  BlockNumber : String := ""
  TransactionIndex : String := ""
  From : String := ""
  To : String := ""
  Nonce : String := ""
  Value : String := ""
  Input : String := ""
  Gas : String := ""
  GasPrice : String := ""
deriving DecidableEq, Repr

/-- The package-level functions the file calls.  `J` is the type of a parsed
`*simplejson.Json`, `F` the type `float64`. -/
structure Lib (J F : Type) where
  /-- The decoder `simplejson.NewJson`. -/
  NewJson : RawMessage → Except GoError J
  /-- The read `sj.Get(key).String()`. -/
  GetString : J → String → Except GoError String
  /-- The read `sj.Get(key).Float64()`. -/
  GetFloat64 : J → String → Except GoError F
  /-- The helper `QtumAmountToEthValue` of the transformer package. -/
  QtumAmountToEthValue : F → Except GoError String
  /-- The helper `AddHexPrefix` of the transformer package. -/
  AddHexPrefix : String → String
  /-- The helper `RemoveHexPrefix` of the transformer package. -/
  RemoveHexPrefix : String → String
  /-- The helper `unmarshalRequest`, decoding into a `[]string`. -/
  unmarshalRequest : RawMessage → Except GoError (List String)
  /-- The encoder `json.Marshal`, applied to a list of strings. -/
  jsonMarshal : List String → Except GoError RawMessage
  /-- The constant `qtum.MethodGettransaction`. -/
  MethodGettransaction : String
  /-- The script parser `qtum.ParseCallASM`. -/
  ParseCallASM : String → Except GoError AsmWithGasGasPriceEncodedABI
  /-- The script parser `qtum.ParseCreateASM`. -/
  ParseCreateASM : String → Except GoError AsmWithGasGasPriceEncodedABI
  /-- The encoder `hexutil.EncodeBig`. -/
  EncodeBig : Int → String
  /-- The encoder `hexutil.EncodeUint64`. -/
  EncodeUint64 : Nat → String

/-- The backend client `m.qtumClient`. -/
structure QtumClient where
  DecodeRawTransaction : String → Except GoError DecodedRawTransaction
  GetTransactionReceipt : String → Except GoError (Option TransactionReceipt)

/-- The receiver `*Manager`. -/
structure Manager where
  qtumClient : QtumClient

/-- A recorded call to the backend client or to a script parser, with its argument. -/
inductive Call where
  | DecodeRawTransaction (hex : String)
  | ParseCallASM (asm : String)
  | ParseCreateASM (asm : String)
  | GetTransactionReceipt (txid : String)
deriving DecidableEq, Repr

/-- What `GettransactionResp` returns, `(interface{}, error)`, together with the calls it
made. -/
structure Outcome where
  obj : Option TransactionResponse
  err : Option GoError
  calls : List Call
deriving DecidableEq, Repr

/-- The `for ... range tx.Vout` loop (lines 79-93): the value of `asm` after the loop, or
the error the loop returns with, and the parser calls made. -/
def scanVout {J F : Type} (L : Lib J F) :
    List Vout → Except GoError (Option AsmWithGasGasPriceEncodedABI) × List Call
  | [] => (.ok none, [])
  | out :: rest =>
    if out.ScriptPubKey.Typ = "call" then
      match L.ParseCallASM out.ScriptPubKey.Asm with
      | .error err => (.error err, [Call.ParseCallASM out.ScriptPubKey.Asm])
      | .ok asm => (.ok (some asm), [Call.ParseCallASM out.ScriptPubKey.Asm])
    else if out.ScriptPubKey.Typ = "create" then
      match L.ParseCreateASM out.ScriptPubKey.Asm with
      | .error err => (.error err, [Call.ParseCreateASM out.ScriptPubKey.Asm])
      | .ok asm => (.ok (some asm), [Call.ParseCreateASM out.ScriptPubKey.Asm])
    else scanVout L rest

/-- The first `if asm != nil` block (lines 95-107): the values of `input`, `gas` and
`gasPrice`, or the error the block returns with. -/
def gasFields {J F : Type} (L : Lib J F) :
    Option AsmWithGasGasPriceEncodedABI → Except GoError (String × String × String)
  | none => .ok ("", "", "")
  | some asm =>
    let input := L.AddHexPrefix asm.GetEncodedABI
    match asm.GetGasLimit with
    | .error err => .error err
    | .ok gasLimitBigInt =>
      match asm.GetGasPrice with
      | .error err => .error err
      | .ok gasPriceBigInt =>
        .ok (input, L.EncodeBig gasLimitBigInt, L.EncodeBig gasPriceBigInt)

/-- The method `Manager.GettransactionResp` (lines 39-133). -/
def GettransactionResp {J F : Type} (L : Lib J F) (m : Manager) (result : RawMessage) :
    Outcome :=
  match L.NewJson result with
  | .error err => ⟨none, some err, []⟩
  | .ok sj =>
  match L.GetString sj "txid" with
  | .error err => ⟨none, some err, []⟩
  | .ok txid =>
  match L.GetString sj "blockhash" with
  | .error err => ⟨none, some err, []⟩
  | .ok blockHash =>
  match L.GetString sj "hex" with
  | .error err => ⟨none, some err, []⟩
  | .ok hexField =>
  match L.GetFloat64 sj "amount" with
  | .error err => ⟨none, some err, []⟩
  | .ok amount =>
  match L.QtumAmountToEthValue amount with
  | .error err => ⟨none, some err, []⟩
  | .ok ethVal =>
  match m.qtumClient.DecodeRawTransaction hexField with
  | .error err =>
    ⟨none, some (GoError.Wrap err "Manager#GettransactionResp"),
      [Call.DecodeRawTransaction hexField]⟩
  | .ok tx =>
  match scanVout L tx.Vout with
  | (.error err, cs) => ⟨none, some err, Call.DecodeRawTransaction hexField :: cs⟩
  | (.ok asm, cs) =>
  match gasFields L asm with
  | .error err => ⟨none, some err, Call.DecodeRawTransaction hexField :: cs⟩
  | .ok (input, gas, gasPrice) =>
  let ethTxResp : TransactionResponse :=
    { Hash := L.AddHexPrefix txid
      BlockHash := L.AddHexPrefix blockHash
      Nonce := ""
      Value := ethVal
      Input := input
      Gas := gas
      GasPrice := gasPrice }
  match asm with
  | none => ⟨some ethTxResp, none, Call.DecodeRawTransaction hexField :: cs⟩
  | some _ =>
    match m.qtumClient.GetTransactionReceipt txid with
    | .error err =>
      ⟨none, some err,
        Call.DecodeRawTransaction hexField :: (cs ++ [Call.GetTransactionReceipt txid])⟩
    | .ok none =>
      ⟨some ethTxResp, none,
        Call.DecodeRawTransaction hexField :: (cs ++ [Call.GetTransactionReceipt txid])⟩
    | .ok (some receipt) =>
      ⟨some { ethTxResp with
          BlockNumber := L.EncodeUint64 receipt.BlockNumber
          TransactionIndex := L.EncodeUint64 receipt.TransactionIndex
          From := L.AddHexPrefix receipt.From
          To := L.AddHexPrefix receipt.ContractAddress },
        none,
        Call.DecodeRawTransaction hexField :: (cs ++ [Call.GetTransactionReceipt txid])⟩

/-- What `GetTransactionByHash` returns, `(ResponseTransformerFunc, error)`, together
with the request as the call leaves it (the request is passed by pointer and
overwritten in place). -/
structure RewriteOutcome where
  handler : Option (RawMessage → Outcome)
  err : Option GoError
  req : JSONRPCRequest

/-- The method `Manager.GetTransactionByHash` (lines 16-37). -/
def GetTransactionByHash {J F : Type} (L : Lib J F) (m : Manager) (req : JSONRPCRequest) :
    RewriteOutcome :=
  match L.unmarshalRequest req.Params with
  | .error err => ⟨none, some err, req⟩
  | .ok params =>
  match params with
  | [] => ⟨none, some (GoError.New "params must be set"), req⟩
  | p0 :: _ =>
  let txid := L.RemoveHexPrefix p0
  match L.jsonMarshal [txid] with
  | .error err => ⟨none, some err, req⟩
  | .ok newParams =>
  ⟨some (GettransactionResp L m), none,
    { req with Params := newParams, Method := L.MethodGettransaction }⟩

/-! ## Reference behaviour of the helpers

The theorems below hold for every `Lib`.  Where a claim speaks of concrete text
(`0xabc123`, the hex encoding of 42), the helper concerned is taken to be the one
defined here. -/

/-- Modelled from the spec: `RemoveHexPrefix` of the transformer package (`util.go`, not
among the sources).  Section 4.3: it "strips a leading chain-specific hex marker from the
first parameter if present (idempotent: absent marker is a no-op)"; the marker is `0x`
(section 8: `0xabc123` becomes `abc123`). -/
def RemoveHexPrefix (hex : String) : String :=
  match hex.data with
  | '0' :: 'x' :: rest => String.mk rest
  | _ => hex

/-- Modelled from the spec: `AddHexPrefix` of the transformer package (`util.go`, not
among the sources).  Section 4.4: values are rendered "with the chain-specific hex marker
added". -/
def AddHexPrefix (hex : String) : String :=
  "0x" ++ hex

/-- Modelled from the spec: the constant `qtum.MethodGettransaction` (package `qtum`, not
among the sources).  Section 1: the backend understands "its own `gettransaction` call". -/
def MethodGettransaction : String := "gettransaction"

/-- A string carries the hex marker when it starts with `0x`. -/
def HasHexMarker (hex : String) : Prop :=
  ∃ rest : List Char, hex.data = '0' :: 'x' :: rest

/-- The function `hexutil.EncodeUint64` of go-ethereum: `0x` followed by the digits of the
number in base 16, lower case, without leading zeros. -/
def EncodeUint64 (i : Nat) : String :=
  "0x" ++ String.mk (Nat.toDigits 16 i)

/-- The function `hexutil.EncodeBig` of go-ethereum: `0x0` for zero, `0x` and the base-16
digits for a positive number, `-0x` and the digits of the absolute value for a negative
one. -/
def EncodeBig (bigint : Int) : String :=
  if bigint = 0 then "0x0"
  else if 0 < bigint then "0x" ++ String.mk (Nat.toDigits 16 bigint.natAbs)
  else "-0x" ++ String.mk (Nat.toDigits 16 bigint.natAbs)

/-- One character of a JSON string as `json.Marshal` of Go's encoding/json writes it: the
quote and the backslash are escaped, line feed, carriage return and tab have their short
escapes, every other control character and the characters `<`, `>`, `&`, U+2028 and
U+2029 are written as a `\u` escape of four hex digits. -/
def jsonEscapeChar (c : Char) : List Char :=
  if c = '"' then ['\\', '"']
  else if c = '\\' then ['\\', '\\']
  else if c = '\n' then ['\\', 'n']
  else if c = '\r' then ['\\', 'r']
  else if c = '\t' then ['\\', 't']
  else if c.toNat < 32 ∨ c = '<' ∨ c = '>' ∨ c = '&' then
    ['\\', 'u', '0', '0', Nat.digitChar (c.toNat / 16), Nat.digitChar (c.toNat % 16)]
  else if c.toNat = 8232 then ['\\', 'u', '2', '0', '2', '8']
  else if c.toNat = 8233 then ['\\', 'u', '2', '0', '2', '9']
  else [c]

/-- A JSON string literal as `json.Marshal` writes it. -/
def jsonString (s : String) : String :=
  "\"" ++ String.mk (s.data.flatMap jsonEscapeChar) ++ "\""

/-- The encoding `json.Marshal` gives a list of strings: the literals separated by
commas, in square brackets. -/
def jsonMarshalStrings (xs : List String) : RawMessage :=
  "[" ++ ",".intercalate (xs.map jsonString) ++ "]"

/-! ## The vocabulary of the specification -/

/-- An output whose type tag is `call` or `create`: the outputs the scan stops at. -/
def IsContractOutput (out : Vout) : Prop :=
  out.ScriptPubKey.Typ = "call" ∨ out.ScriptPubKey.Typ = "create"

instance : DecidablePred IsContractOutput :=
  fun _ => inferInstanceAs (Decidable (_ ∨ _))

/-- The script parser that matches an output's type tag, applied to its script:
`ParseCallASM` for the tag `call`, `ParseCreateASM` otherwise. -/
def parseMatching {J F : Type} (L : Lib J F) (out : Vout) :
    Except GoError AsmWithGasGasPriceEncodedABI :=
  if out.ScriptPubKey.Typ = "call" then L.ParseCallASM out.ScriptPubKey.Asm
  else L.ParseCreateASM out.ScriptPubKey.Asm

/-- The record of the parser call on a matching output. -/
def parserCall (out : Vout) : Call :=
  if out.ScriptPubKey.Typ = "call" then Call.ParseCallASM out.ScriptPubKey.Asm
  else Call.ParseCreateASM out.ScriptPubKey.Asm

/-- A recorded call is a call to one of the two script parsers. -/
def Call.IsParserCall : Call → Prop
  | .ParseCallASM _ => True
  | .ParseCreateASM _ => True
  | _ => False

/-- A recorded call is a receipt fetch. -/
def Call.IsReceiptFetch : Call → Prop
  | .GetTransactionReceipt _ => True
  | _ => False

/-- A collaborator's call reported an error. -/
def Failed {α : Type} : Except GoError α → Prop
  | .error _ => True
  | .ok _ => False

/-- The steps up to the output scan all succeed on `result`: the payload parses, `txid`,
`blockhash`, `hex` and `amount` are read from it, the amount converts to `ethVal`, and
the raw hex decodes to `tx`. -/
def DecodesTo {J F : Type} (L : Lib J F) (m : Manager) (result : RawMessage)
    (txid blockHash hexField ethVal : String) (tx : DecodedRawTransaction) : Prop :=
  ∃ sj amount,
    L.NewJson result = .ok sj ∧
    L.GetString sj "txid" = .ok txid ∧
    L.GetString sj "blockhash" = .ok blockHash ∧
    L.GetString sj "hex" = .ok hexField ∧
    L.GetFloat64 sj "amount" = .ok amount ∧
    L.QtumAmountToEthValue amount = .ok ethVal ∧
    m.qtumClient.DecodeRawTransaction hexField = .ok tx

/-- One of the steps of the pipeline fails on `result`: parsing the payload, reading
`txid`, `blockhash`, `hex` or `amount`, converting the amount, decoding the raw hex, the
parser call on the first output tagged `call` or `create`, `GetGasLimit` or `GetGasPrice`
of the descriptor parsed from it, or the receipt fetch for the transaction of such a
descriptor. -/
def AnyStepFails {J F : Type} (L : Lib J F) (m : Manager) (result : RawMessage) : Prop :=
  match L.NewJson result with
  | .error _ => True
  | .ok sj =>
    Failed (L.GetString sj "txid") ∨ Failed (L.GetString sj "blockhash") ∨
    Failed (L.GetString sj "hex") ∨ Failed (L.GetFloat64 sj "amount") ∨
    (∃ amount, L.GetFloat64 sj "amount" = .ok amount ∧
      Failed (L.QtumAmountToEthValue amount)) ∨
    (∃ hexField, L.GetString sj "hex" = .ok hexField ∧
      (Failed (m.qtumClient.DecodeRawTransaction hexField) ∨
       ∃ tx out, m.qtumClient.DecodeRawTransaction hexField = .ok tx ∧
        tx.Vout.find? (fun o => decide (IsContractOutput o)) = some out ∧
        (Failed (parseMatching L out) ∨
         ∃ asm, parseMatching L out = .ok asm ∧
          (Failed asm.GetGasLimit ∨ Failed asm.GetGasPrice ∨
           ∃ txid, L.GetString sj "txid" = .ok txid ∧
            Failed (m.qtumClient.GetTransactionReceipt txid)))))

/-- The backend client of `m` with the decoder replaced by one that returns the output
list `vout`. -/
def Manager.withVout (m : Manager) (vout : List Vout) : Manager :=
  { qtumClient := { m.qtumClient with DecodeRawTransaction := fun _ => .ok ⟨vout⟩ } }

/-- The backend client of `m` with the receipt fetch replaced by one that returns
`receipt`. -/
def Manager.withReceipt (m : Manager) (receipt : Except GoError (Option TransactionReceipt)) :
    Manager :=
  { qtumClient := { m.qtumClient with GetTransactionReceipt := fun _ => receipt } }

/-! ## The float64 read of a JSON number

`sj.Get("amount").Float64()` hands the text of the JSON number to `strconv.ParseFloat`,
which returns the float64 nearest to the decimal written, a tie going to the even
mantissa, and a range error when that float64 would not be finite.  A finite float64 is
modelled by the rational it denotes (the two zeros are not told apart). -/

/-- Rounding to the nearest integer, a tie going to the even one. -/
def roundHalfEven (x : ℚ) : ℤ :=
  if x - ⌊x⌋ < 1 / 2 then ⌊x⌋
  else if 1 / 2 < x - ⌊x⌋ then ⌊x⌋ + 1
  else if ⌊x⌋ % 2 = 0 then ⌊x⌋ else ⌊x⌋ + 1

/-- The spacing of the float64 values around `q`: a mantissa of 53 bits, the exponent
not below that of the subnormal range. -/
def float64Ulp (q : ℚ) : ℚ :=
  (2 : ℚ) ^ (max (Int.log 2 |q|) (-1022) - 52)

/-- The float64 nearest to `q`, a tie going to the even mantissa. -/
def float64Nearest (q : ℚ) : ℚ :=
  roundHalfEven (q / float64Ulp q) * float64Ulp q

/-- The function `strconv.ParseFloat(s, 64)` on the text of the number `q`. -/
def ParseFloat64 (q : ℚ) : Except GoError ℚ :=
  if (2 : ℚ) ^ (1024 : ℕ) ≤ |float64Nearest q| then
    .error (GoError.New "strconv.ParseFloat: value out of range")
  else .ok (float64Nearest q)

/-- The decimal amount with 8 fractional digits nearest to a float64: the way back from
the float to an amount of the backend chain. -/
def amountOfFloat64 (f : ℚ) : ℚ :=
  (round (f * 10 ^ 8) : ℚ) / 10 ^ 8

/-- The payload `result` carries the decimal amount `a`: it parses, and its `amount` is
the JSON number `a`, read as a float64. -/
def CarriesAmount {J : Type} (L : Lib J ℚ) (result : RawMessage) (a : ℚ) : Prop :=
  ∃ sj, L.NewJson result = .ok sj ∧ L.GetFloat64 sj "amount" = ParseFloat64 a

/-! ## An example backend

A small concrete world, used to run the definitions: payloads (a contract call with a
receipt, a contract call without one, plain transfers, a contract creation whose gas
limit does not read), their decoded outputs and scripts. -/

/-- A JSON value of the example payloads: a string or a number. -/
inductive ExampleValue where
  | str (s : String)
  | num (q : ℚ)

/-- A parsed example payload: its members by key. -/
abbrev ExampleJson := List (String × ExampleValue)

/-- The member of an object with the given key, when there is one. -/
def ExampleJson.member (sj : ExampleJson) (key : String) : Option ExampleValue :=
  (sj.find? (fun kv => kv.1 = key)).map Prod.snd

/-- The descriptor of the example call script. -/
def exampleCallASM : AsmWithGasGasPriceEncodedABI :=
  { GetEncodedABI := "a9059cbb", GetGasPrice := .ok 40, GetGasLimit := .ok 250000 }

/-- The output list of the example contract call: a transfer output, the call, and a
further call output whose script does not parse. -/
def exampleCallVout : List Vout :=
  [⟨⟨"pubkeyhash", "OP_DUP OP_HASH160"⟩⟩, ⟨⟨"call", "4 250000 40 a9059cbb c0de OP_CALL"⟩⟩,
    ⟨⟨"call", "garbage"⟩⟩]

/-- The receipt of the example contract call. -/
def exampleReceipt : TransactionReceipt :=
  { BlockNumber := 42, TransactionIndex := 3, From := "aaaa", ContractAddress := "bbbb" }

/-- The request parameters and the helpers of the example world. -/
def exampleUnmarshalRequest (raw : RawMessage) : Except GoError (List String) :=
  if raw = "[\"0xabc123\",\"latest\"]" then .ok ["0xabc123", "latest"]
  else if raw = "[\"abc123\"]" then .ok ["abc123"]
  else if raw = "[]" then .ok []
  else .error (GoError.New "json: cannot unmarshal")

/-- The parsers of the example world: one script parses as a call, one as a create. -/
def exampleParseCallASM (asm : String) : Except GoError AsmWithGasGasPriceEncodedABI :=
  if asm = "4 250000 40 a9059cbb c0de OP_CALL" then .ok exampleCallASM
  else .error (GoError.New "invalid call ASM")

/-- The create parser of the example world: its one script has a gas limit that does not
read as a number. -/
def exampleParseCreateASM (asm : String) : Except GoError AsmWithGasGasPriceEncodedABI :=
  if asm = "4 x 40 6060 OP_CREATE" then
    .ok { GetEncodedABI := "6060", GetGasPrice := .ok 40,
          GetGasLimit := .error (GoError.New "Failed to parse gas limit") }
  else .error (GoError.New "invalid create ASM")

/-- The payloads of the example world. -/
def exampleNewJson (raw : RawMessage) : Except GoError ExampleJson :=
  if raw = "callTx" then
    .ok [("txid", .str "aa11"), ("blockhash", .str "b10c"), ("hex", .str "0200ca11"),
         ("amount", .num (3 / 2))]
  else if raw = "pendingTx" then
    .ok [("txid", .str "cc33"), ("blockhash", .str "b10c"), ("hex", .str "0200ca11"),
         ("amount", .num 0)]
  else if raw = "sendTx" then
    .ok [("txid", .str "bb22"), ("blockhash", .str "b10c"), ("hex", .str "02005e9d"),
         ("amount", .num (150000000 / 10 ^ 8))]
  else if raw = "createTx" then
    .ok [("txid", .str "dd44"), ("blockhash", .str "b10c"), ("hex", .str "0200c4ea"),
         ("amount", .num 0)]
  else if raw = "bigTx1" then
    .ok [("txid", .str "ff66"), ("blockhash", .str "b10c"), ("hex", .str "02005e9d"),
         ("amount", .num (6710886400000001 / 10 ^ 8))]
  else if raw = "bigTx2" then
    .ok [("txid", .str "ff77"), ("blockhash", .str "b10c"), ("hex", .str "02005e9d"),
         ("amount", .num (6710886400000002 / 10 ^ 8))]
  else if raw = "noAmount" then
    .ok [("txid", .str "ee55"), ("blockhash", .str "b10c"), ("hex", .str "02005e9d")]
  else .error (GoError.New "unexpected end of JSON input")

/-- The library of the example world. -/
def exampleLib : Lib ExampleJson ℚ where
  NewJson := exampleNewJson
  GetString := fun sj key =>
    match sj.member key with
    | some (.str s) => .ok s
    | _ => .error (GoError.New "type assertion to string failed")
  GetFloat64 := fun sj key =>
    match sj.member key with
    | some (.num q) => ParseFloat64 q
    | _ => .error (GoError.New "invalid value type")
  QtumAmountToEthValue := fun f =>
    if f < 0 then .error (GoError.New "negative amount")
    else .ok (EncodeBig (round (f * 10 ^ 8)))
  AddHexPrefix := AddHexPrefix
  RemoveHexPrefix := RemoveHexPrefix
  unmarshalRequest := exampleUnmarshalRequest
  jsonMarshal := fun xs => .ok (jsonMarshalStrings xs)
  MethodGettransaction := MethodGettransaction
  ParseCallASM := exampleParseCallASM
  ParseCreateASM := exampleParseCreateASM
  EncodeBig := EncodeBig
  EncodeUint64 := EncodeUint64

/-- The backend client of the example world. -/
def exampleManager : Manager where
  qtumClient :=
    { DecodeRawTransaction := fun hex =>
        if hex = "0200ca11" then .ok ⟨exampleCallVout⟩
        else if hex = "02005e9d" then .ok ⟨[⟨⟨"pubkeyhash", "OP_DUP OP_HASH160"⟩⟩]⟩
        else if hex = "0200c4ea" then .ok ⟨[⟨⟨"create", "4 x 40 6060 OP_CREATE"⟩⟩]⟩
        else .error (GoError.New "TX decode failed")
      GetTransactionReceipt := fun txid =>
        if txid = "aa11" then .ok (some exampleReceipt)
        else if txid = "cc33" then .ok none
        else .error (GoError.New "connection refused") }

/-! ## Lemmas on the float64 read -/

theorem abs_roundHalfEven_sub_le (x : ℚ) : |(roundHalfEven x : ℚ) - x| ≤ 1 / 2 := by
  have h0 : (⌊x⌋ : ℚ) ≤ x := Int.floor_le x
  have h1 : x < ⌊x⌋ + 1 := Int.lt_floor_add_one x
  unfold roundHalfEven
  split_ifs with ha hb hc
  · rw [abs_le]; constructor <;> linarith
  · rw [abs_le]; push_cast; constructor <;> linarith
  · rw [abs_le]; push_cast at *; constructor <;> linarith
  · rw [abs_le]; push_cast at *; constructor <;> linarith

theorem float64Ulp_pos (q : ℚ) : 0 < float64Ulp q := by
  unfold float64Ulp; positivity

theorem abs_float64Nearest_sub_le (q : ℚ) : |float64Nearest q - q| ≤ float64Ulp q / 2 := by
  have hu := float64Ulp_pos q
  have h := abs_roundHalfEven_sub_le (q / float64Ulp q)
  have e : float64Nearest q - q = ((roundHalfEven (q / float64Ulp q) : ℚ) - q / float64Ulp q) * float64Ulp q := by
    unfold float64Nearest; field_simp
  rw [e, abs_mul, abs_of_pos hu]
  calc _ ≤ 1 / 2 * float64Ulp q := by gcongr
    _ = _ := by ring

theorem float64Ulp_le (q : ℚ) (e : ℤ) (he : 1 ≤ e) (hq : |q| < (2 : ℚ) ^ e) :
    float64Ulp q ≤ (2 : ℚ) ^ (e - 53) := by
  unfold float64Ulp
  have hlog : Int.log 2 |q| < e := by
    rcases eq_or_lt_of_le (abs_nonneg q) with h | h
    · rw [← h, Int.log_of_right_le_zero 2 le_rfl]; omega
    · exact (Int.lt_zpow_iff_log_lt (by norm_num) h).1 (by exact_mod_cast hq)
  apply zpow_le_zpow_right₀ (by norm_num)
  have hmax : max (Int.log 2 |q|) (-1022) ≤ e - 1 := max_le (by omega) (by omega)
  omega

theorem amountOfFloat64_float64Nearest (k : ℕ) (hk : k < 2 ^ 26 * 10 ^ 8) :
    amountOfFloat64 (float64Nearest ((k : ℚ) / 10 ^ 8)) = (k : ℚ) / 10 ^ 8 := by
  set a : ℚ := (k : ℚ) / 10 ^ 8 with ha
  have ha0 : 0 ≤ a := by positivity
  have hlt : |a| < (2 : ℚ) ^ (26 : ℤ) := by
    rw [abs_of_nonneg ha0, ha, div_lt_iff₀ (by positivity)]
    have : ((k : ℚ)) < ((2 ^ 26 * 10 ^ 8 : ℕ) : ℚ) := by exact_mod_cast hk
    push_cast at this
    exact_mod_cast this
  have hu := float64Ulp_le a 26 (by norm_num) hlt
  have hd := abs_float64Nearest_sub_le a
  have hu2 : float64Ulp a ≤ 1 / 2 ^ 27 := by
    refine hu.trans (le_of_eq ?_)
    norm_num [zpow_neg]
  rw [abs_le] at hd
  unfold amountOfFloat64
  have hr : round (float64Nearest a * 10 ^ 8) = (k : ℤ) := by
    rw [round_eq, Int.floor_eq_iff]
    have hk8 : (k : ℚ) = a * 10 ^ 8 := by rw [ha]; field_simp
    push_cast
    rw [hk8]
    constructor <;> nlinarith [hd.1, hd.2]
  rw [hr, ha]; push_cast; rfl

theorem ParseFloat64_ok (q : ℚ) (hq : |q| < (2 : ℚ) ^ (1000 : ℤ)) :
    ParseFloat64 q = .ok (float64Nearest q) := by
  have hu := float64Ulp_le q 1000 (by norm_num) hq
  have hd := abs_float64Nearest_sub_le q
  have hu2 : float64Ulp q ≤ 2 ^ (947 : ℕ) := by
    refine hu.trans (le_of_eq ?_)
    norm_num
  unfold ParseFloat64
  rw [if_neg]
  rw [not_le]
  have h1 : |float64Nearest q| ≤ |float64Nearest q - q| + |q| := by
    have := abs_add (float64Nearest q - q) q
    simpa using this
  have h2 : (2 : ℚ) ^ (1000 : ℤ) = 2 ^ (1000 : ℕ) := by norm_num
  rw [h2] at hq
  calc |float64Nearest q| ≤ |float64Nearest q - q| + |q| := h1
    _ < 2 ^ (947 : ℕ) + 2 ^ (1000 : ℕ) := by linarith
    _ < 2 ^ 1024 := by norm_num

theorem roundHalfEven_eq_of_abs_lt (x : ℚ) (n : ℤ) (h : |x - n| < 1 / 2) :
    roundHalfEven x = n := by
  rw [abs_lt] at h
  have h0 : (⌊x⌋ : ℚ) ≤ x := Int.floor_le x
  have h1 : x < ⌊x⌋ + 1 := Int.lt_floor_add_one x
  have hcases : ⌊x⌋ = n ∨ ⌊x⌋ = n - 1 := by
    have a1 : ((n : ℤ) : ℚ) - 1 < (⌊x⌋ : ℚ) + 1 := by linarith [h.1]
    have a2 : (⌊x⌋ : ℚ) < (n : ℚ) + 1 := by linarith [h.2]
    have b1 : n - 1 < ⌊x⌋ + 1 := by exact_mod_cast a1
    have b2 : ⌊x⌋ < n + 1 := by exact_mod_cast a2
    omega
  unfold roundHalfEven
  rcases hcases with hf | hf
  · rw [hf, if_pos (by linarith [h.2])]
  · have hc : (⌊x⌋ : ℚ) = n - 1 := by rw [hf]; push_cast; ring
    rw [if_neg (by rw [hc]; linarith [h.1]), if_pos (by rw [hc]; linarith [h.1]), hf]
    ring

theorem float64Ulp_binade (q : ℚ) (e : ℤ) (he : -1022 ≤ e) (h1 : (2 : ℚ) ^ e ≤ q)
    (h2 : q < (2 : ℚ) ^ (e + 1)) : float64Ulp q = (2 : ℚ) ^ (e - 52) := by
  have hq : 0 < q := lt_of_lt_of_le (by positivity) h1
  have hlog : Int.log 2 |q| = e := by
    rw [abs_of_pos hq]
    apply le_antisymm
    · have := (Int.lt_zpow_iff_log_lt (b := 2) (x := e + 1) (by norm_num) hq).1
        (by exact_mod_cast h2)
      omega
    · exact (Int.zpow_le_iff_le_log (b := 2) (x := e) (by norm_num) hq).1 (by exact_mod_cast h1)
  unfold float64Ulp
  rw [hlog, max_eq_left he]

theorem float64Nearest_collision :
    float64Nearest (6710886400000001 / 10 ^ 8) = 2 ^ 26 + 1 / 2 ^ 26 ∧
    float64Nearest (6710886400000002 / 10 ^ 8) = 2 ^ 26 + 1 / 2 ^ 26 := by
  have hu : ∀ q : ℚ, (2 : ℚ) ^ (26 : ℤ) ≤ q → q < (2 : ℚ) ^ ((26 : ℤ) + 1) →
      float64Ulp q = 1 / 2 ^ 26 := by
    intro q h1 h2
    rw [float64Ulp_binade q 26 (by norm_num) h1 h2]
    norm_num [zpow_neg]
  constructor
  · unfold float64Nearest
    rw [hu _ (by norm_num) (by norm_num),
      roundHalfEven_eq_of_abs_lt _ (2 ^ 52 + 1) (by rw [abs_lt]; constructor <;> norm_num)]
    norm_num
  · unfold float64Nearest
    rw [hu _ (by norm_num) (by norm_num),
      roundHalfEven_eq_of_abs_lt _ (2 ^ 52 + 1) (by rw [abs_lt]; constructor <;> norm_num)]
    norm_num

/-! ## The output scan -/

theorem scanVout_no_match {J F : Type} (L : Lib J F) (vout : List Vout)
    (h : ∀ out ∈ vout, ¬ IsContractOutput out) : scanVout L vout = (.ok none, []) := by
  induction vout with
  | nil => rfl
  | cons out rest ih =>
    have ho := h out (List.mem_cons_self _ _)
    simp only [IsContractOutput, not_or] at ho
    rw [scanVout, if_neg ho.1, if_neg ho.2]
    exact ih (fun x hx => h x (List.mem_cons_of_mem _ hx))

theorem scanVout_match_head {J F : Type} (L : Lib J F) (out : Vout) (post : List Vout)
    (ho : IsContractOutput out) :
    scanVout L (out :: post) =
      (match parseMatching L out with
        | .error err => .error err
        | .ok asm => .ok (some asm), [parserCall out]) := by
  by_cases hc : out.ScriptPubKey.Typ = "call"
  · simp only [scanVout, parseMatching, parserCall, if_pos hc]
    cases L.ParseCallASM out.ScriptPubKey.Asm <;> rfl
  · have hcr : out.ScriptPubKey.Typ = "create" := ho.resolve_left hc
    simp only [scanVout, parseMatching, parserCall, if_neg hc, if_pos hcr]
    cases L.ParseCreateASM out.ScriptPubKey.Asm <;> rfl

theorem scanVout_first_match {J F : Type} (L : Lib J F) (pre : List Vout) (out : Vout)
    (post : List Vout) (hpre : ∀ x ∈ pre, ¬ IsContractOutput x) (ho : IsContractOutput out) :
    scanVout L (pre ++ [out] ++ post) =
      (match parseMatching L out with
        | .error err => .error err
        | .ok asm => .ok (some asm), [parserCall out]) := by
  induction pre with
  | nil => simpa using scanVout_match_head L out post ho
  | cons x rest ih =>
    have hx := hpre x (List.mem_cons_self _ _)
    simp only [IsContractOutput, not_or] at hx
    simp only [List.cons_append, scanVout, if_neg hx.1, if_neg hx.2]
    simpa using ih (fun y hy => hpre y (List.mem_cons_of_mem _ hy))

theorem scanVout_eq_find {J F : Type} (L : Lib J F) (vout : List Vout) :
    scanVout L vout =
      match vout.find? (fun o => decide (IsContractOutput o)) with
      | none => (.ok none, [])
      | some out =>
        (match parseMatching L out with
          | .error err => .error err
          | .ok asm => .ok (some asm), [parserCall out]) := by
  induction vout with
  | nil => rfl
  | cons out rest ih =>
    by_cases ho : IsContractOutput out
    · rw [scanVout_match_head L out rest ho]
      simp [List.find?, ho]
    · have ho2 := ho
      simp only [IsContractOutput, not_or] at ho2
      rw [scanVout, if_neg ho2.1, if_neg ho2.2, ih]
      simp [List.find?, ho]

/-! ## The reconstructor, step by step -/

theorem resp_no_descriptor {J F : Type} (L : Lib J F) (m : Manager) (result : RawMessage)
    (txid blockHash hexField ethVal : String) (tx : DecodedRawTransaction)
    (hdec : DecodesTo L m result txid blockHash hexField ethVal tx)
    (hno : ∀ out ∈ tx.Vout, ¬ IsContractOutput out) :
    GettransactionResp L m result =
      ⟨some { Hash := L.AddHexPrefix txid, BlockHash := L.AddHexPrefix blockHash,
              Nonce := "", Value := ethVal, Input := "", Gas := "", GasPrice := "",
              BlockNumber := "", TransactionIndex := "", From := "", To := "" },
        none, [Call.DecodeRawTransaction hexField]⟩ := by
  obtain ⟨sj, amount, h1, h2, h3, h4, h5, h6, h7⟩ := hdec
  simp [GettransactionResp, h1, h2, h3, h4, h5, h6, h7, scanVout_no_match L tx.Vout hno,
    gasFields]

theorem resp_gasLimit_error {J F : Type} (L : Lib J F) (m : Manager) (result : RawMessage)
    (txid blockHash hexField ethVal : String) (tx : DecodedRawTransaction)
    (asm : AsmWithGasGasPriceEncodedABI) (cs : List Call) (err : GoError)
    (hdec : DecodesTo L m result txid blockHash hexField ethVal tx)
    (hscan : scanVout L tx.Vout = (.ok (some asm), cs))
    (hlimit : asm.GetGasLimit = .error err) :
    GettransactionResp L m result =
      ⟨none, some err, Call.DecodeRawTransaction hexField :: cs⟩ := by
  obtain ⟨sj, amount, h1, h2, h3, h4, h5, h6, h7⟩ := hdec
  simp [GettransactionResp, h1, h2, h3, h4, h5, h6, h7, hscan, gasFields, hlimit]

theorem resp_gasPrice_error {J F : Type} (L : Lib J F) (m : Manager) (result : RawMessage)
    (txid blockHash hexField ethVal : String) (tx : DecodedRawTransaction)
    (asm : AsmWithGasGasPriceEncodedABI) (cs : List Call) (gasLimit : Int) (err : GoError)
    (hdec : DecodesTo L m result txid blockHash hexField ethVal tx)
    (hscan : scanVout L tx.Vout = (.ok (some asm), cs))
    (hlimit : asm.GetGasLimit = .ok gasLimit) (hprice : asm.GetGasPrice = .error err) :
    GettransactionResp L m result =
      ⟨none, some err, Call.DecodeRawTransaction hexField :: cs⟩ := by
  obtain ⟨sj, amount, h1, h2, h3, h4, h5, h6, h7⟩ := hdec
  simp [GettransactionResp, h1, h2, h3, h4, h5, h6, h7, hscan, gasFields, hlimit, hprice]

theorem resp_receipt_error {J F : Type} (L : Lib J F) (m : Manager) (result : RawMessage)
    (txid blockHash hexField ethVal : String) (tx : DecodedRawTransaction)
    (asm : AsmWithGasGasPriceEncodedABI) (cs : List Call) (gasLimit gasPrice : Int)
    (err : GoError)
    (hdec : DecodesTo L m result txid blockHash hexField ethVal tx)
    (hscan : scanVout L tx.Vout = (.ok (some asm), cs))
    (hlimit : asm.GetGasLimit = .ok gasLimit) (hprice : asm.GetGasPrice = .ok gasPrice)
    (hreceipt : m.qtumClient.GetTransactionReceipt txid = .error err) :
    GettransactionResp L m result =
      ⟨none, some err,
        Call.DecodeRawTransaction hexField :: (cs ++ [Call.GetTransactionReceipt txid])⟩ := by
  obtain ⟨sj, amount, h1, h2, h3, h4, h5, h6, h7⟩ := hdec
  simp [GettransactionResp, h1, h2, h3, h4, h5, h6, h7, hscan, gasFields, hlimit, hprice,
    hreceipt]

theorem resp_receipt_none {J F : Type} (L : Lib J F) (m : Manager) (result : RawMessage)
    (txid blockHash hexField ethVal : String) (tx : DecodedRawTransaction)
    (asm : AsmWithGasGasPriceEncodedABI) (cs : List Call) (gasLimit gasPrice : Int)
    (hdec : DecodesTo L m result txid blockHash hexField ethVal tx)
    (hscan : scanVout L tx.Vout = (.ok (some asm), cs))
    (hlimit : asm.GetGasLimit = .ok gasLimit) (hprice : asm.GetGasPrice = .ok gasPrice)
    (hreceipt : m.qtumClient.GetTransactionReceipt txid = .ok none) :
    GettransactionResp L m result =
      ⟨some { Hash := L.AddHexPrefix txid, BlockHash := L.AddHexPrefix blockHash,
              Nonce := "", Value := ethVal, Input := L.AddHexPrefix asm.GetEncodedABI,
              Gas := L.EncodeBig gasLimit, GasPrice := L.EncodeBig gasPrice,
              BlockNumber := "", TransactionIndex := "", From := "", To := "" },
        none,
        Call.DecodeRawTransaction hexField :: (cs ++ [Call.GetTransactionReceipt txid])⟩ := by
  obtain ⟨sj, amount, h1, h2, h3, h4, h5, h6, h7⟩ := hdec
  simp [GettransactionResp, h1, h2, h3, h4, h5, h6, h7, hscan, gasFields, hlimit, hprice,
    hreceipt]

theorem resp_receipt_some {J F : Type} (L : Lib J F) (m : Manager) (result : RawMessage)
    (txid blockHash hexField ethVal : String) (tx : DecodedRawTransaction)
    (asm : AsmWithGasGasPriceEncodedABI) (cs : List Call) (gasLimit gasPrice : Int)
    (r : TransactionReceipt)
    (hdec : DecodesTo L m result txid blockHash hexField ethVal tx)
    (hscan : scanVout L tx.Vout = (.ok (some asm), cs))
    (hlimit : asm.GetGasLimit = .ok gasLimit) (hprice : asm.GetGasPrice = .ok gasPrice)
    (hreceipt : m.qtumClient.GetTransactionReceipt txid = .ok (some r)) :
    GettransactionResp L m result =
      ⟨some { Hash := L.AddHexPrefix txid, BlockHash := L.AddHexPrefix blockHash,
              Nonce := "", Value := ethVal, Input := L.AddHexPrefix asm.GetEncodedABI,
              Gas := L.EncodeBig gasLimit, GasPrice := L.EncodeBig gasPrice,
              BlockNumber := L.EncodeUint64 r.BlockNumber,
              TransactionIndex := L.EncodeUint64 r.TransactionIndex,
              From := L.AddHexPrefix r.From, To := L.AddHexPrefix r.ContractAddress },
        none,
        Call.DecodeRawTransaction hexField :: (cs ++ [Call.GetTransactionReceipt txid])⟩ := by
  obtain ⟨sj, amount, h1, h2, h3, h4, h5, h6, h7⟩ := hdec
  simp [GettransactionResp, h1, h2, h3, h4, h5, h6, h7, hscan, gasFields, hlimit, hprice,
    hreceipt]

theorem decodesTo_withReceipt {J F : Type} (L : Lib J F) (m : Manager) (result : RawMessage)
    (txid blockHash hexField ethVal : String) (tx : DecodedRawTransaction)
    (receipt : Except GoError (Option TransactionReceipt))
    (hdec : DecodesTo L m result txid blockHash hexField ethVal tx) :
    DecodesTo L (m.withReceipt receipt) result txid blockHash hexField ethVal tx := by
  obtain ⟨sj, amount, h1, h2, h3, h4, h5, h6, h7⟩ := hdec
  exact ⟨sj, amount, h1, h2, h3, h4, h5, h6, h7⟩

theorem decodesTo_of_same_decoder {J F : Type} (L : Lib J F) (m m2 : Manager)
    (result : RawMessage) (txid blockHash hexField ethVal : String)
    (tx : DecodedRawTransaction)
    (hsame : m2.qtumClient.DecodeRawTransaction = m.qtumClient.DecodeRawTransaction)
    (hdec : DecodesTo L m result txid blockHash hexField ethVal tx) :
    DecodesTo L m2 result txid blockHash hexField ethVal tx := by
  obtain ⟨sj, amount, h1, h2, h3, h4, h5, h6, h7⟩ := hdec
  exact ⟨sj, amount, h1, h2, h3, h4, h5, h6, by rw [hsame, h7]⟩

theorem returned_object_origin {J F : Type} (L : Lib J F) (m : Manager) (result : RawMessage)
    (obj : TransactionResponse) (hobj : (GettransactionResp L m result).obj = some obj) :
    obj.Nonce = "" ∧
    ∃ sj txid blockHash amount,
      L.NewJson result = .ok sj ∧
      L.GetString sj "txid" = .ok txid ∧ obj.Hash = L.AddHexPrefix txid ∧
      L.GetString sj "blockhash" = .ok blockHash ∧ obj.BlockHash = L.AddHexPrefix blockHash ∧
      L.GetFloat64 sj "amount" = .ok amount ∧
      L.QtumAmountToEthValue amount = .ok obj.Value := by
  unfold GettransactionResp at hobj
  cases h1 : L.NewJson result with
  | error e => simp [h1] at hobj
  | ok sj =>
  cases h2 : L.GetString sj "txid" with
  | error e => simp [h1, h2] at hobj
  | ok txid =>
  cases h3 : L.GetString sj "blockhash" with
  | error e => simp [h1, h2, h3] at hobj
  | ok blockHash =>
  cases h4 : L.GetString sj "hex" with
  | error e => simp [h1, h2, h3, h4] at hobj
  | ok hexField =>
  cases h5 : L.GetFloat64 sj "amount" with
  | error e => simp [h1, h2, h3, h4, h5] at hobj
  | ok amount =>
  cases h6 : L.QtumAmountToEthValue amount with
  | error e => simp [h1, h2, h3, h4, h5, h6] at hobj
  | ok ethVal =>
  cases h7 : m.qtumClient.DecodeRawTransaction hexField with
  | error e => simp [h1, h2, h3, h4, h5, h6, h7] at hobj
  | ok tx =>
  simp only [h1, h2, h3, h4, h5, h6, h7] at hobj
  rcases hs : scanVout L tx.Vout with ⟨sr, cs⟩
  rw [hs] at hobj
  cases sr with
  | error e => simp at hobj
  | ok asm =>
  dsimp only at hobj
  cases hg : gasFields L asm with
  | error e => simp [hg] at hobj
  | ok g =>
  obtain ⟨input, gas, gasPrice⟩ := g
  simp only [hg] at hobj
  cases asm with
  | none =>
    simp only [Option.some.injEq] at hobj
    subst hobj
    exact ⟨rfl, sj, txid, blockHash, amount, rfl, h2, rfl, h3, rfl, h5, h6⟩
  | some a =>
    dsimp only at hobj
    cases hr : m.qtumClient.GetTransactionReceipt txid with
    | error e => simp [hr] at hobj
    | ok r =>
      cases r with
      | none =>
        simp only [hr, Option.some.injEq] at hobj
        subst hobj
        exact ⟨rfl, sj, txid, blockHash, amount, rfl, h2, rfl, h3, rfl, h5, h6⟩
      | some rc =>
        simp only [hr, Option.some.injEq] at hobj
        subst hobj
        exact ⟨rfl, sj, txid, blockHash, amount, rfl, h2, rfl, h3, rfl, h5, h6⟩

theorem value_of_carried_amount {J : Type} (L : Lib J ℚ) (m : Manager) (result : RawMessage)
    (a f : ℚ) (obj : TransactionResponse) (hamount : CarriesAmount L result a)
    (hf : ParseFloat64 a = .ok f)
    (hobj : (GettransactionResp L m result).obj = some obj) :
    L.QtumAmountToEthValue f = .ok obj.Value := by
  obtain ⟨-, sj, txid, blockHash, amount, h1, -, -, -, -, h5, h6⟩ :=
    returned_object_origin L m result obj hobj
  obtain ⟨sj2, g1, g2⟩ := hamount
  rw [h1] at g1
  cases g1
  rw [g2, hf] at h5
  cases h5
  exact h6

theorem ParseFloat64_collision :
    ParseFloat64 (6710886400000001 / 10 ^ 8) = .ok (2 ^ 26 + 1 / 2 ^ 26) ∧
    ParseFloat64 (6710886400000002 / 10 ^ 8) = .ok (2 ^ 26 + 1 / 2 ^ 26) := by
  constructor
  · rw [ParseFloat64_ok _ (by rw [abs_of_pos (by norm_num)]; norm_num),
      float64Nearest_collision.1]
  · rw [ParseFloat64_ok _ (by rw [abs_of_pos (by norm_num)]; norm_num),
      float64Nearest_collision.2]

/-! ## The example backend, evaluated -/

theorem float64Nearest_three_halves : float64Nearest (3 / 2) = 3 / 2 := by
  unfold float64Nearest
  rw [float64Ulp_binade (3 / 2) 0 (by norm_num) (by norm_num) (by norm_num),
    roundHalfEven_eq_of_abs_lt _ (3 * 2 ^ 51) (by norm_num [zpow_neg])]
  norm_num [zpow_neg]

theorem ParseFloat64_three_halves : ParseFloat64 (3 / 2) = .ok (3 / 2) := by
  rw [ParseFloat64_ok _ (by rw [abs_of_pos (by norm_num)]; norm_num), float64Nearest_three_halves]

theorem ParseFloat64_zero : ParseFloat64 0 = .ok 0 := by
  rw [ParseFloat64_ok _ (by norm_num)]
  simp [float64Nearest, roundHalfEven]

theorem example_convert_three_halves :
    exampleLib.QtumAmountToEthValue (3 / 2) = .ok "0x8f0d180" := by
  have h : round ((3 / 2 : ℚ) * 10 ^ 8) = 150000000 := by
    rw [round_eq, Int.floor_eq_iff]; norm_num
  have h2 : EncodeBig 150000000 = "0x8f0d180" := by decide
  simp only [exampleLib, h, h2]
  norm_num

theorem example_convert_zero : exampleLib.QtumAmountToEthValue 0 = .ok "0x0" := by
  have h2 : EncodeBig 0 = "0x0" := by decide
  simp [exampleLib, h2]

theorem example_callTx_decodes :
    DecodesTo exampleLib exampleManager "callTx" "aa11" "b10c" "0200ca11" "0x8f0d180"
      ⟨exampleCallVout⟩ :=
  ⟨_, 3 / 2, rfl, rfl, rfl, rfl, ParseFloat64_three_halves, example_convert_three_halves, rfl⟩

theorem example_pendingTx_decodes :
    DecodesTo exampleLib exampleManager "pendingTx" "cc33" "b10c" "0200ca11" "0x0"
      ⟨exampleCallVout⟩ :=
  ⟨_, 0, rfl, rfl, rfl, rfl, ParseFloat64_zero, example_convert_zero, rfl⟩

theorem example_sendTx_decodes :
    DecodesTo exampleLib exampleManager "sendTx" "bb22" "b10c" "02005e9d" "0x8f0d180"
      ⟨[⟨⟨"pubkeyhash", "OP_DUP OP_HASH160"⟩⟩]⟩ :=
  ⟨_, 3 / 2, rfl, rfl, rfl, rfl,
    (by
      show ParseFloat64 (150000000 / 10 ^ 8) = .ok (3 / 2)
      rw [show (150000000 / 10 ^ 8 : ℚ) = 3 / 2 by norm_num]
      exact ParseFloat64_three_halves),
    example_convert_three_halves, rfl⟩

theorem example_createTx_decodes :
    DecodesTo exampleLib exampleManager "createTx" "dd44" "b10c" "0200c4ea" "0x0"
      ⟨[⟨⟨"create", "4 x 40 6060 OP_CREATE"⟩⟩]⟩ :=
  ⟨_, 0, rfl, rfl, rfl, rfl, ParseFloat64_zero, example_convert_zero, rfl⟩

theorem example_scan_call :
    scanVout exampleLib exampleCallVout =
      (.ok (some exampleCallASM), [Call.ParseCallASM "4 250000 40 a9059cbb c0de OP_CALL"]) := by
  rfl

theorem example_sendTx_no_match :
    ∀ out ∈ [(⟨⟨"pubkeyhash", "OP_DUP OP_HASH160"⟩⟩ : Vout)], ¬ IsContractOutput out := by
  intro out hout
  simp only [List.mem_singleton] at hout
  subst hout
  decide

theorem example_convert_big :
    exampleLib.QtumAmountToEthValue (2 ^ 26 + 1 / 2 ^ 26) = .ok "0x17d78400000001" := by
  have h : round (((2 : ℚ) ^ 26 + 1 / 2 ^ 26) * 10 ^ 8) = 6710886400000001 := by
    rw [round_eq, Int.floor_eq_iff]; norm_num
  have h2 : EncodeBig 6710886400000001 = "0x17d78400000001" := by decide
  simp only [exampleLib, h, h2]
  norm_num

theorem example_bigTx1_decodes :
    DecodesTo exampleLib exampleManager "bigTx1" "ff66" "b10c" "02005e9d" "0x17d78400000001"
      ⟨[⟨⟨"pubkeyhash", "OP_DUP OP_HASH160"⟩⟩]⟩ :=
  ⟨_, 2 ^ 26 + 1 / 2 ^ 26, rfl, rfl, rfl, rfl, ParseFloat64_collision.1, example_convert_big,
    rfl⟩

theorem example_bigTx2_decodes :
    DecodesTo exampleLib exampleManager "bigTx2" "ff77" "b10c" "02005e9d" "0x17d78400000001"
      ⟨[⟨⟨"pubkeyhash", "OP_DUP OP_HASH160"⟩⟩]⟩ :=
  ⟨_, 2 ^ 26 + 1 / 2 ^ 26, rfl, rfl, rfl, rfl, ParseFloat64_collision.2, example_convert_big,
    rfl⟩

theorem example_scan_create :
    scanVout exampleLib [⟨⟨"create", "4 x 40 6060 OP_CREATE"⟩⟩] =
      (.ok (some { GetEncodedABI := "6060", GetGasPrice := .ok 40,
                   GetGasLimit := .error (GoError.New "Failed to parse gas limit") }),
        [Call.ParseCreateASM "4 x 40 6060 OP_CREATE"]) := by
  rfl

/-! ## The claims -/

/-- C1. `GettransactionResp` returns either an object and no error, or no object and an
error, never both and never neither.  Whenever one of the steps fails (`AnyStepFails`:
parsing the payload, reading `txid`, `blockhash`, `hex` or `amount`, the amount
conversion, `DecodeRawTransaction`, the parser call on the first matching output,
`GetGasLimit`, `GetGasPrice`, `GetTransactionReceipt`) the object is nil and the error is
not; when none fails the object is not nil and the error is. -/
theorem GettransactionResp_object_or_error {J F : Type} (L : Lib J F) (m : Manager)
    (result : RawMessage) :
    (AnyStepFails L m result →
      (GettransactionResp L m result).obj = none ∧
      (GettransactionResp L m result).err ≠ none) ∧
    (¬ AnyStepFails L m result →
      (GettransactionResp L m result).obj ≠ none ∧
      (GettransactionResp L m result).err = none) ∧
    (((GettransactionResp L m result).obj = none ∧
        (GettransactionResp L m result).err ≠ none) ∨
      ((GettransactionResp L m result).obj ≠ none ∧
        (GettransactionResp L m result).err = none)) := by
  have key : (AnyStepFails L m result →
      (GettransactionResp L m result).obj = none ∧
      (GettransactionResp L m result).err ≠ none) ∧
    (¬ AnyStepFails L m result →
      (GettransactionResp L m result).obj ≠ none ∧
      (GettransactionResp L m result).err = none) := by
    unfold AnyStepFails GettransactionResp
    cases h1 : L.NewJson result with
    | error e => simp
    | ok sj =>
    dsimp only
    cases h2 : L.GetString sj "txid" with
    | error e => simp [Failed, h1, h2]
    | ok txid =>
    dsimp only
    cases h3 : L.GetString sj "blockhash" with
    | error e => simp [Failed, h1, h2, h3]
    | ok blockHash =>
    dsimp only
    cases h4 : L.GetString sj "hex" with
    | error e => simp [Failed, h1, h2, h3, h4]
    | ok hexField =>
    dsimp only
    cases h5 : L.GetFloat64 sj "amount" with
    | error e => simp [Failed, h1, h2, h3, h4, h5]
    | ok amount =>
    dsimp only
    cases h6 : L.QtumAmountToEthValue amount with
    | error e => simp [Failed, h1, h2, h3, h4, h5, h6]
    | ok ethVal =>
    dsimp only
    cases h7 : m.qtumClient.DecodeRawTransaction hexField with
    | error e => simp [Failed, h1, h2, h3, h4, h5, h6, h7]
    | ok tx =>
    dsimp only
    simp only [scanVout_eq_find]
    cases h8 : tx.Vout.find? (fun o => decide (IsContractOutput o)) with
    | none => simp [Failed, gasFields, h1, h2, h3, h4, h5, h6, h7, h8]
    | some out =>
    cases h9 : parseMatching L out with
    | error e => simp [Failed, gasFields, h1, h2, h3, h4, h5, h6, h7, h8, h9]
    | ok asm =>
    cases h10 : asm.GetGasLimit with
    | error e => simp [Failed, gasFields, h1, h2, h3, h4, h5, h6, h7, h8, h9, h10]
    | ok gl =>
    cases h11 : asm.GetGasPrice with
    | error e => simp [Failed, gasFields, h1, h2, h3, h4, h5, h6, h7, h8, h9, h10, h11]
    | ok gp =>
    cases h12 : m.qtumClient.GetTransactionReceipt txid with
    | error e =>
      simp [Failed, gasFields, h1, h2, h3, h4, h5, h6, h7, h8, h9, h10, h11, h12]
    | ok r =>
      cases r <;>
        simp [Failed, gasFields, h1, h2, h3, h4, h5, h6, h7, h8, h9, h10, h11, h12]
  refine ⟨key.1, key.2, ?_⟩
  by_cases h : AnyStepFails L m result
  · exact Or.inl (key.1 h)
  · exact Or.inr (key.2 h)

/-- C1, run on the example backend: the contract call with a receipt makes no step fail
and returns an object without an error; the contract creation whose gas limit does not
read makes a step fail and returns the error without an object. -/
theorem GettransactionResp_object_or_error_witness :
    (¬ AnyStepFails exampleLib exampleManager "callTx" ∧
      (GettransactionResp exampleLib exampleManager "callTx").obj ≠ none ∧
      (GettransactionResp exampleLib exampleManager "callTx").err = none) ∧
    (AnyStepFails exampleLib exampleManager "createTx" ∧
      (GettransactionResp exampleLib exampleManager "createTx").obj = none ∧
      (GettransactionResp exampleLib exampleManager "createTx").err =
        some (GoError.New "Failed to parse gas limit")) := by
  have hcall := resp_receipt_some exampleLib exampleManager "callTx" _ _ _ _ _ _ _ 250000 40
    exampleReceipt example_callTx_decodes example_scan_call rfl rfl rfl
  have hcreate := resp_gasLimit_error exampleLib exampleManager "createTx" _ _ _ _ _ _ _ _
    example_createTx_decodes example_scan_create rfl
  have hthm1 := GettransactionResp_object_or_error exampleLib exampleManager "callTx"
  have hthm2 := GettransactionResp_object_or_error exampleLib exampleManager "createTx"
  refine ⟨⟨?_, ?_, ?_⟩, ?_, ?_, ?_⟩
  · intro hf
    have := (hthm1.1 hf).1
    rw [hcall] at this
    simp at this
  · rw [hcall]; simp
  · rw [hcall]
  · by_contra hf
    have := (hthm2.2.1 hf).2
    rw [hcreate] at this
    simp at this
  · rw [hcreate]
  · rw [hcreate]

/-- C2. First match wins in the output scan.  For a decoded output list
`pre ++ [out] ++ post` in which no output of `pre` is tagged `call` or `create` and `out`
is, the scan makes exactly one parser call, the one on the script of `out`
(`ParseCallASM` for the tag `call`, `ParseCreateASM` for `create`), and ends with its
result; every parser call `GettransactionResp` records is that call; and the outcome of
`GettransactionResp` is the same for every `post`, whatever further `call` or `create`
outputs or unparsable scripts it holds. -/
theorem first_match_wins {J F : Type} (L : Lib J F) (m : Manager) (result : RawMessage)
    (pre : List Vout) (out : Vout) (post post2 : List Vout)
    (hpre : ∀ x ∈ pre, ¬ IsContractOutput x) (hout : IsContractOutput out) :
    scanVout L (pre ++ [out] ++ post) =
      (match parseMatching L out with
        | .error err => .error err
        | .ok asm => .ok (some asm), [parserCall out]) ∧
    (∀ c ∈ (GettransactionResp L (m.withVout (pre ++ [out] ++ post)) result).calls,
      c.IsParserCall → c = parserCall out) ∧
    GettransactionResp L (m.withVout (pre ++ [out] ++ post)) result =
      GettransactionResp L (m.withVout (pre ++ [out] ++ post2)) result := by
  have hs := scanVout_first_match L pre out post hpre hout
  have hs2 := scanVout_first_match L pre out post2 hpre hout
  refine ⟨hs, ?_, ?_⟩
  · unfold GettransactionResp
    cases h1 : L.NewJson result with
    | error e => simp
    | ok sj =>
    dsimp only
    cases h2 : L.GetString sj "txid" with
    | error e => simp
    | ok txid =>
    dsimp only
    cases h3 : L.GetString sj "blockhash" with
    | error e => simp
    | ok blockHash =>
    dsimp only
    cases h4 : L.GetString sj "hex" with
    | error e => simp
    | ok hexField =>
    dsimp only
    cases h5 : L.GetFloat64 sj "amount" with
    | error e => simp
    | ok amount =>
    dsimp only
    cases h6 : L.QtumAmountToEthValue amount with
    | error e => simp
    | ok ethVal =>
    simp only [Manager.withVout, hs]
    cases h9 : parseMatching L out with
    | error e => simp [Call.IsParserCall]
    | ok asm =>
    cases h10 : asm.GetGasLimit with
    | error e => simp [gasFields, h10, Call.IsParserCall]
    | ok gl =>
    cases h11 : asm.GetGasPrice with
    | error e => simp [gasFields, h10, h11, Call.IsParserCall]
    | ok gp =>
    cases h12 : m.qtumClient.GetTransactionReceipt txid with
    | error e => simp [gasFields, h10, h11, h12, Call.IsParserCall]
    | ok r => cases r <;> simp [gasFields, h10, h11, h12, Call.IsParserCall]
  · simp only [GettransactionResp, Manager.withVout, hs, hs2]

/-- C2, run on the example backend: in the output list of the example contract call (a
transfer output, the call, a further call output whose script does not parse) only the
script of the first call output is parsed, and dropping the outputs after it leaves the
outcome as it is. -/
theorem first_match_wins_witness :
    scanVout exampleLib exampleCallVout =
      (.ok (some exampleCallASM), [Call.ParseCallASM "4 250000 40 a9059cbb c0de OP_CALL"]) ∧
    GettransactionResp exampleLib (exampleManager.withVout exampleCallVout) "callTx" =
      GettransactionResp exampleLib
        (exampleManager.withVout
          [⟨⟨"pubkeyhash", "OP_DUP OP_HASH160"⟩⟩,
           ⟨⟨"call", "4 250000 40 a9059cbb c0de OP_CALL"⟩⟩]) "callTx" := by
  have h := first_match_wins exampleLib exampleManager "callTx"
    [⟨⟨"pubkeyhash", "OP_DUP OP_HASH160"⟩⟩] ⟨⟨"call", "4 250000 40 a9059cbb c0de OP_CALL"⟩⟩
    [⟨⟨"call", "garbage"⟩⟩] [] example_sendTx_no_match (by decide)
  exact ⟨h.1, h.2.2⟩

/-- C3. When the output scan produced the descriptor `asm`: an object that
`GettransactionResp` returns has `Input = AddHexPrefix (asm.GetEncodedABI)`,
`Gas = hexutil.EncodeBig` of the gas limit and `GasPrice = hexutil.EncodeBig` of the gas
price, and one is returned whenever both accessors and the receipt fetch succeed; when
`GetGasLimit` returns an error, or `GetGasLimit` succeeds and `GetGasPrice` returns an
error, `GettransactionResp` returns that error and no object. -/
theorem descriptor_gas_fields {J F : Type} (L : Lib J F) (m : Manager) (result : RawMessage)
    (txid blockHash hexField ethVal : String) (tx : DecodedRawTransaction)
    (asm : AsmWithGasGasPriceEncodedABI) (cs : List Call)
    (hdec : DecodesTo L m result txid blockHash hexField ethVal tx)
    (hscan : scanVout L tx.Vout = (.ok (some asm), cs)) :
    (∀ obj, (GettransactionResp L m result).obj = some obj →
      ∃ gasLimit gasPrice, asm.GetGasLimit = .ok gasLimit ∧ asm.GetGasPrice = .ok gasPrice ∧
        obj.Input = L.AddHexPrefix asm.GetEncodedABI ∧
        obj.Gas = L.EncodeBig gasLimit ∧ obj.GasPrice = L.EncodeBig gasPrice) ∧
    (∀ gasLimit gasPrice receipt, asm.GetGasLimit = .ok gasLimit →
      asm.GetGasPrice = .ok gasPrice →
      m.qtumClient.GetTransactionReceipt txid = .ok receipt →
      ∃ obj, (GettransactionResp L m result).obj = some obj ∧
        (GettransactionResp L m result).err = none ∧
        obj.Input = L.AddHexPrefix asm.GetEncodedABI ∧
        obj.Gas = L.EncodeBig gasLimit ∧ obj.GasPrice = L.EncodeBig gasPrice) ∧
    (∀ err, asm.GetGasLimit = .error err →
      (GettransactionResp L m result).obj = none ∧
      (GettransactionResp L m result).err = some err) ∧
    (∀ gasLimit err, asm.GetGasLimit = .ok gasLimit → asm.GetGasPrice = .error err →
      (GettransactionResp L m result).obj = none ∧
      (GettransactionResp L m result).err = some err) := by
  have succ : ∀ gasLimit gasPrice receipt, asm.GetGasLimit = .ok gasLimit →
      asm.GetGasPrice = .ok gasPrice →
      m.qtumClient.GetTransactionReceipt txid = .ok receipt →
      ∃ obj, (GettransactionResp L m result).obj = some obj ∧
        (GettransactionResp L m result).err = none ∧
        obj.Input = L.AddHexPrefix asm.GetEncodedABI ∧
        obj.Gas = L.EncodeBig gasLimit ∧ obj.GasPrice = L.EncodeBig gasPrice := by
    intro gl gp receipt hgl hgp hr
    cases receipt with
    | none =>
      rw [resp_receipt_none L m result _ _ _ _ _ _ _ gl gp hdec hscan hgl hgp hr]
      exact ⟨_, rfl, rfl, rfl, rfl, rfl⟩
    | some r =>
      rw [resp_receipt_some L m result _ _ _ _ _ _ _ gl gp r hdec hscan hgl hgp hr]
      exact ⟨_, rfl, rfl, rfl, rfl, rfl⟩
  refine ⟨?_, succ, ?_, ?_⟩
  · intro obj hobj
    cases hgl : asm.GetGasLimit with
    | error e =>
      rw [resp_gasLimit_error L m result _ _ _ _ _ _ _ e hdec hscan hgl] at hobj
      simp at hobj
    | ok gl =>
      cases hgp : asm.GetGasPrice with
      | error e =>
        rw [resp_gasPrice_error L m result _ _ _ _ _ _ _ gl e hdec hscan hgl hgp] at hobj
        simp at hobj
      | ok gp =>
        refine ⟨gl, gp, rfl, rfl, ?_⟩
        cases hr : m.qtumClient.GetTransactionReceipt txid with
        | error e =>
          rw [resp_receipt_error L m result _ _ _ _ _ _ _ gl gp e hdec hscan hgl hgp hr]
            at hobj
          simp at hobj
        | ok receipt =>
          obtain ⟨o, ho, -, h1, h2, h3⟩ := succ gl gp receipt hgl hgp hr
          rw [ho] at hobj
          cases hobj
          exact ⟨h1, h2, h3⟩
  · intro err hgl
    rw [resp_gasLimit_error L m result _ _ _ _ _ _ _ err hdec hscan hgl]
    exact ⟨rfl, rfl⟩
  · intro gl err hgl hgp
    rw [resp_gasPrice_error L m result _ _ _ _ _ _ _ gl err hdec hscan hgl hgp]
    exact ⟨rfl, rfl⟩

/-- C3, run on the example backend: the example contract call, whose descriptor has call
data `a9059cbb`, gas limit 250000 and gas price 40, comes back with `Input = 0xa9059cbb`,
`Gas = 0x3d090` and `GasPrice = 0x28`. -/
theorem descriptor_gas_fields_witness :
    ∃ obj, (GettransactionResp exampleLib exampleManager "callTx").obj = some obj ∧
      (GettransactionResp exampleLib exampleManager "callTx").err = none ∧
      obj.Input = "0xa9059cbb" ∧ obj.Gas = "0x3d090" ∧ obj.GasPrice = "0x28" :=
  (descriptor_gas_fields exampleLib exampleManager "callTx" _ _ _ _ _ exampleCallASM _
    example_callTx_decodes example_scan_call).2.1 250000 40 (some exampleReceipt) rfl rfl rfl

/-- C4. When the output scan produced a descriptor and `GetTransactionReceipt` returns the
receipt `r` without error, an object that `GettransactionResp` returns has
`BlockNumber = hexutil.EncodeUint64 r.BlockNumber`,
`TransactionIndex = hexutil.EncodeUint64 r.TransactionIndex`,
`From = AddHexPrefix r.From` and `To = AddHexPrefix r.ContractAddress`, and one is returned
whenever both gas accessors succeed (the receipt is fetched only then); for the receipt
with block number 42, index 3, from `A` and contract address `B` these are the encodings
of 42 and 3, and `A` and `B` with the marker added. -/
theorem receipt_fields {J F : Type} (L : Lib J F) (m : Manager) (result : RawMessage)
    (txid blockHash hexField ethVal : String) (tx : DecodedRawTransaction)
    (asm : AsmWithGasGasPriceEncodedABI) (cs : List Call) (r : TransactionReceipt)
    (hdec : DecodesTo L m result txid blockHash hexField ethVal tx)
    (hscan : scanVout L tx.Vout = (.ok (some asm), cs))
    (hreceipt : m.qtumClient.GetTransactionReceipt txid = .ok (some r)) :
    (∀ obj, (GettransactionResp L m result).obj = some obj →
      obj.BlockNumber = L.EncodeUint64 r.BlockNumber ∧
      obj.TransactionIndex = L.EncodeUint64 r.TransactionIndex ∧
      obj.From = L.AddHexPrefix r.From ∧
      obj.To = L.AddHexPrefix r.ContractAddress) ∧
    (∀ A B : String, r = ⟨42, 3, A, B⟩ →
      ∀ obj, (GettransactionResp L m result).obj = some obj →
        obj.BlockNumber = L.EncodeUint64 42 ∧ obj.TransactionIndex = L.EncodeUint64 3 ∧
        obj.From = L.AddHexPrefix A ∧ obj.To = L.AddHexPrefix B) ∧
    (∀ gasLimit gasPrice, asm.GetGasLimit = .ok gasLimit → asm.GetGasPrice = .ok gasPrice →
      ∃ obj, (GettransactionResp L m result).obj = some obj ∧
        (GettransactionResp L m result).err = none) := by
  have key : ∀ obj, (GettransactionResp L m result).obj = some obj →
      obj.BlockNumber = L.EncodeUint64 r.BlockNumber ∧
      obj.TransactionIndex = L.EncodeUint64 r.TransactionIndex ∧
      obj.From = L.AddHexPrefix r.From ∧
      obj.To = L.AddHexPrefix r.ContractAddress := by
    intro obj hobj
    cases hgl : asm.GetGasLimit with
    | error e =>
      rw [resp_gasLimit_error L m result _ _ _ _ _ _ _ e hdec hscan hgl] at hobj
      simp at hobj
    | ok gl =>
      cases hgp : asm.GetGasPrice with
      | error e =>
        rw [resp_gasPrice_error L m result _ _ _ _ _ _ _ gl e hdec hscan hgl hgp] at hobj
        simp at hobj
      | ok gp =>
        rw [resp_receipt_some L m result _ _ _ _ _ _ _ gl gp r hdec hscan hgl hgp hreceipt]
          at hobj
        cases hobj
        exact ⟨rfl, rfl, rfl, rfl⟩
  refine ⟨key, ?_, ?_⟩
  · intro A B hr obj hobj
    have h := key obj hobj
    rw [hr] at h
    exact h
  · intro gl gp hgl hgp
    rw [resp_receipt_some L m result _ _ _ _ _ _ _ gl gp r hdec hscan hgl hgp hreceipt]
    exact ⟨_, rfl, rfl⟩

/-- C4, run on the example backend: the example contract call has the receipt with block
number 42, index 3, from `aaaa` and contract address `bbbb`, and comes back with
`BlockNumber = 0x2a`, `TransactionIndex = 0x3`, `From = 0xaaaa` and `To = 0xbbbb`. -/
theorem receipt_fields_witness :
    exampleReceipt = ⟨42, 3, "aaaa", "bbbb"⟩ ∧
    (∃ obj, (GettransactionResp exampleLib exampleManager "callTx").obj = some obj) ∧
    ∀ obj, (GettransactionResp exampleLib exampleManager "callTx").obj = some obj →
      obj.BlockNumber = "0x2a" ∧ obj.TransactionIndex = "0x3" ∧
      obj.From = "0xaaaa" ∧ obj.To = "0xbbbb" := by
  have h := receipt_fields exampleLib exampleManager "callTx" _ _ _ _ _ exampleCallASM _
    exampleReceipt example_callTx_decodes example_scan_call rfl
  refine ⟨rfl, ?_, ?_⟩
  · obtain ⟨obj, hobj, -⟩ := h.2.2 250000 40 rfl rfl
    exact ⟨obj, hobj⟩
  · intro obj hobj
    exact h.2.1 "aaaa" "bbbb" rfl obj hobj

/-- C5. When the output scan produced a descriptor, both gas accessors succeeded (so that
the receipt is fetched) and `GetTransactionReceipt` returns no receipt and no error,
`GettransactionResp` succeeds: it returns an object and no error; `BlockNumber`,
`TransactionIndex`, `From` and `To` of the object are the empty string; `Hash`,
`BlockHash`, `Value`, `Input`, `Gas` and `GasPrice` are what they are when the fetch
returns a receipt. -/
theorem receipt_absent {J F : Type} (L : Lib J F) (m : Manager) (result : RawMessage)
    (txid blockHash hexField ethVal : String) (tx : DecodedRawTransaction)
    (asm : AsmWithGasGasPriceEncodedABI) (cs : List Call) (gasLimit gasPrice : Int)
    (hdec : DecodesTo L m result txid blockHash hexField ethVal tx)
    (hscan : scanVout L tx.Vout = (.ok (some asm), cs))
    (hlimit : asm.GetGasLimit = .ok gasLimit) (hprice : asm.GetGasPrice = .ok gasPrice)
    (hreceipt : m.qtumClient.GetTransactionReceipt txid = .ok none) :
    (∃ obj, (GettransactionResp L m result).obj = some obj ∧
      (GettransactionResp L m result).err = none ∧
      obj.BlockNumber = "" ∧ obj.TransactionIndex = "" ∧ obj.From = "" ∧ obj.To = "" ∧
      ∀ r : TransactionReceipt,
        ∃ found,
          (GettransactionResp L (m.withReceipt (.ok (some r))) result).obj = some found ∧
          obj.Hash = found.Hash ∧ obj.BlockHash = found.BlockHash ∧
          obj.Value = found.Value ∧ obj.Input = found.Input ∧ obj.Gas = found.Gas ∧
          obj.GasPrice = found.GasPrice) ∧
    GettransactionResp L m result =
      ⟨some { Hash := L.AddHexPrefix txid, BlockHash := L.AddHexPrefix blockHash,
              Nonce := "", Value := ethVal, Input := L.AddHexPrefix asm.GetEncodedABI,
              Gas := L.EncodeBig gasLimit, GasPrice := L.EncodeBig gasPrice,
              BlockNumber := "", TransactionIndex := "", From := "", To := "" },
        none,
        Call.DecodeRawTransaction hexField :: (cs ++ [Call.GetTransactionReceipt txid])⟩ := by
  have e1 := resp_receipt_none L m result _ _ _ _ _ _ _ gasLimit gasPrice hdec hscan hlimit
    hprice hreceipt
  refine ⟨?_, e1⟩
  rw [e1]
  refine ⟨_, rfl, rfl, rfl, rfl, rfl, rfl, ?_⟩
  intro r
  rw [resp_receipt_some L (m.withReceipt (.ok (some r))) result _ _ _ _ _ _ _ gasLimit
    gasPrice r (decodesTo_withReceipt L m result _ _ _ _ _ _ hdec) hscan hlimit hprice rfl]
  exact ⟨_, rfl, rfl, rfl, rfl, rfl, rfl, rfl⟩

/-- C5, run on the example backend: the contract call without a receipt comes back as an
object, without an error, its receipt fields empty. -/
theorem receipt_absent_witness :
    GettransactionResp exampleLib exampleManager "pendingTx" =
      ⟨some { Hash := "0xcc33", BlockHash := "0xb10c", Nonce := "", Value := "0x0",
              Input := "0xa9059cbb", Gas := "0x3d090", GasPrice := "0x28",
              BlockNumber := "", TransactionIndex := "", From := "", To := "" },
        none,
        [Call.DecodeRawTransaction "0200ca11",
         Call.ParseCallASM "4 250000 40 a9059cbb c0de OP_CALL",
         Call.GetTransactionReceipt "cc33"]⟩ :=
  (receipt_absent exampleLib exampleManager "pendingTx" _ _ _ _ _ exampleCallASM _ 250000 40
    example_pendingTx_decodes example_scan_call rfl rfl rfl).2

/-- C6. When the steps up to decoding succeed and no decoded output is tagged `call` or
`create` (the empty list included), `GettransactionResp` returns an object and no error;
`Input`, `Gas`, `GasPrice`, `BlockNumber`, `TransactionIndex`, `From` and `To` of the
object are the empty string; the only call recorded is the decoding, so no receipt is
fetched; and the outcome is the same for every backend client with the same decoder,
whatever its receipt fetch would return, an error included. -/
theorem no_contract_output {J F : Type} (L : Lib J F) (m m2 : Manager) (result : RawMessage)
    (txid blockHash hexField ethVal : String) (tx : DecodedRawTransaction)
    (hdec : DecodesTo L m result txid blockHash hexField ethVal tx)
    (hno : ∀ out ∈ tx.Vout, ¬ IsContractOutput out)
    (hsame : m2.qtumClient.DecodeRawTransaction = m.qtumClient.DecodeRawTransaction) :
    GettransactionResp L m result =
      ⟨some { Hash := L.AddHexPrefix txid, BlockHash := L.AddHexPrefix blockHash,
              Nonce := "", Value := ethVal, Input := "", Gas := "", GasPrice := "",
              BlockNumber := "", TransactionIndex := "", From := "", To := "" },
        none, [Call.DecodeRawTransaction hexField]⟩ ∧
    (∀ c ∈ (GettransactionResp L m result).calls, ¬ c.IsReceiptFetch) ∧
    GettransactionResp L m2 result = GettransactionResp L m result := by
  have e1 := resp_no_descriptor L m result _ _ _ _ _ hdec hno
  have e2 := resp_no_descriptor L m2 result _ _ _ _ _
    (decodesTo_of_same_decoder L m m2 result _ _ _ _ _ hsame hdec) hno
  refine ⟨e1, ?_, ?_⟩
  · rw [e1]; simp [Call.IsReceiptFetch]
  · rw [e1, e2]

/-- C6, run on the example backend: the plain transfer comes back with the contract and
receipt fields empty and the decoding as its only call, although the receipt fetch for
its transaction id would report an error; a backend whose receipt fetch returns a
receipt gives the same outcome. -/
theorem no_contract_output_witness :
    exampleManager.qtumClient.GetTransactionReceipt "bb22" =
      .error (GoError.New "connection refused") ∧
    GettransactionResp exampleLib exampleManager "sendTx" =
      ⟨some { Hash := "0xbb22", BlockHash := "0xb10c", Nonce := "", Value := "0x8f0d180",
              Input := "", Gas := "", GasPrice := "",
              BlockNumber := "", TransactionIndex := "", From := "", To := "" },
        none, [Call.DecodeRawTransaction "02005e9d"]⟩ ∧
    GettransactionResp exampleLib (exampleManager.withReceipt (.ok (some exampleReceipt)))
        "sendTx" =
      GettransactionResp exampleLib exampleManager "sendTx" := by
  have h := no_contract_output exampleLib exampleManager
    (exampleManager.withReceipt (.ok (some exampleReceipt))) "sendTx" _ _ _ _ _
    example_sendTx_decodes example_sendTx_no_match rfl
  exact ⟨rfl, h.1, h.2.2⟩

/-- C7. For a request whose parameters decode as the non-empty list `p0 :: rest`,
`GetTransactionByHash` succeeds: it returns no error and `GettransactionResp` as the
response handler, and leaves the request with the method name
`qtum.MethodGettransaction` and, as parameters, the JSON encoding of the one-element list
`[RemoveHexPrefix p0]`, the parameters after the first being dropped.  With
`RemoveHexPrefix` as the specification describes it and `json.Marshal` as Go encodes a
list of strings, the parameters `["0xabc123", ...]` become `["abc123"]`, and a first
parameter without the marker is passed through unchanged. -/
theorem GetTransactionByHash_rewrites {J F : Type} (L : Lib J F) (m : Manager)
    (req : JSONRPCRequest) (p0 : String) (rest : List String) (newParams : RawMessage)
    (hparams : L.unmarshalRequest req.Params = .ok (p0 :: rest))
    (hmarshal : L.jsonMarshal [L.RemoveHexPrefix p0] = .ok newParams) :
    (GetTransactionByHash L m req).err = none ∧
    (GetTransactionByHash L m req).handler = some (GettransactionResp L m) ∧
    (GetTransactionByHash L m req).req =
      { Method := L.MethodGettransaction, Params := newParams } ∧
    (L.RemoveHexPrefix = RemoveHexPrefix →
      L.jsonMarshal = (fun xs => .ok (jsonMarshalStrings xs)) →
      (p0 = "0xabc123" → (GetTransactionByHash L m req).req.Params = "[\"abc123\"]") ∧
      (¬ HasHexMarker p0 →
        (GetTransactionByHash L m req).req.Params = jsonMarshalStrings [p0])) := by
  have e : GetTransactionByHash L m req =
      ⟨some (GettransactionResp L m), none,
        { Method := L.MethodGettransaction, Params := newParams }⟩ := by
    simp [GetTransactionByHash, hparams, hmarshal]
  rw [e]
  refine ⟨rfl, rfl, rfl, ?_⟩
  intro hR hM
  rw [hR, hM] at hmarshal
  simp only [Except.ok.injEq] at hmarshal
  subst hmarshal
  constructor
  · intro hp
    subst hp
    show jsonMarshalStrings [RemoveHexPrefix "0xabc123"] = "[\"abc123\"]"
    decide
  · intro hp
    have hremove : RemoveHexPrefix p0 = p0 := by
      unfold RemoveHexPrefix
      split
      · rename_i rest2 heq
        exact absurd ⟨rest2, heq⟩ hp
      · rfl
    simp only [hremove]

/-- C7, run on the example backend: the request with the parameters
`["0xabc123","latest"]` is left with the method `gettransaction` and the parameters
`["abc123"]`, and the handler returned is `GettransactionResp`. -/
theorem GetTransactionByHash_rewrites_witness :
    (GetTransactionByHash exampleLib exampleManager
      ⟨"eth_getTransactionByHash", "[\"0xabc123\",\"latest\"]"⟩).err = none ∧
    (GetTransactionByHash exampleLib exampleManager
      ⟨"eth_getTransactionByHash", "[\"0xabc123\",\"latest\"]"⟩).handler =
        some (GettransactionResp exampleLib exampleManager) ∧
    (GetTransactionByHash exampleLib exampleManager
      ⟨"eth_getTransactionByHash", "[\"0xabc123\",\"latest\"]"⟩).req =
        { Method := "gettransaction", Params := "[\"abc123\"]" } := by
  have h := GetTransactionByHash_rewrites exampleLib exampleManager
    ⟨"eth_getTransactionByHash", "[\"0xabc123\",\"latest\"]"⟩ "0xabc123" ["latest"]
    "[\"abc123\"]" rfl rfl
  exact ⟨h.1, h.2.1, h.2.2.1⟩

/-- C8. For a request whose parameters decode as the empty list, `GetTransactionByHash`
fails with the error `params must be set`, returns no response handler and leaves the
request as it was. -/
theorem GetTransactionByHash_empty_params {J F : Type} (L : Lib J F) (m : Manager)
    (req : JSONRPCRequest) (hparams : L.unmarshalRequest req.Params = .ok []) :
    (GetTransactionByHash L m req).err = some (GoError.New "params must be set") ∧
    (GetTransactionByHash L m req).handler = none ∧
    (GetTransactionByHash L m req).req = req := by
  simp [GetTransactionByHash, hparams]

/-- C8, run on the example backend: the request with the parameters `[]` fails with
`params must be set`. -/
theorem GetTransactionByHash_empty_params_witness :
    (GetTransactionByHash exampleLib exampleManager ⟨"eth_getTransactionByHash", "[]"⟩).err =
      some (GoError.New "params must be set") ∧
    (GetTransactionByHash exampleLib exampleManager
      ⟨"eth_getTransactionByHash", "[]"⟩).handler = none :=
  have h := GetTransactionByHash_empty_params exampleLib exampleManager
    ⟨"eth_getTransactionByHash", "[]"⟩ rfl
  ⟨h.1, h.2.1⟩

/-- C9. Every object that `GettransactionResp` returns has `Nonce` equal to the empty
string, `Hash = AddHexPrefix txid` and `BlockHash = AddHexPrefix blockhash` for the `txid`
and `blockhash` read from the payload, and as `Value` the result of
`QtumAmountToEthValue` on the `amount` read from the payload, whatever the output list and
the receipt outcome. -/
theorem identity_fields {J F : Type} (L : Lib J F) (m : Manager) (result : RawMessage)
    (obj : TransactionResponse) (hobj : (GettransactionResp L m result).obj = some obj) :
    obj.Nonce = "" ∧
    ∃ sj txid blockHash amount,
      L.NewJson result = .ok sj ∧
      L.GetString sj "txid" = .ok txid ∧ obj.Hash = L.AddHexPrefix txid ∧
      L.GetString sj "blockhash" = .ok blockHash ∧ obj.BlockHash = L.AddHexPrefix blockHash ∧
      L.GetFloat64 sj "amount" = .ok amount ∧
      L.QtumAmountToEthValue amount = .ok obj.Value :=
  returned_object_origin L m result obj hobj

/-- C9, run on the example backend: the object returned for the example contract call has
an empty `Nonce`, the hash `0xaa11`, the block hash `0xb10c` and the value `0x8f0d180`
(150000000 in base 16, for the amount 1.5). -/
theorem identity_fields_witness :
    ∃ obj, (GettransactionResp exampleLib exampleManager "callTx").obj = some obj ∧
      obj.Nonce = "" ∧ obj.Hash = "0xaa11" ∧ obj.BlockHash = "0xb10c" ∧
      obj.Value = "0x8f0d180" := by
  have hobj : (GettransactionResp exampleLib exampleManager "callTx").obj =
      some { Hash := "0xaa11", BlockHash := "0xb10c", Nonce := "", Value := "0x8f0d180",
             Input := "0xa9059cbb", Gas := "0x3d090", GasPrice := "0x28",
             BlockNumber := "0x2a", TransactionIndex := "0x3", From := "0xaaaa",
             To := "0xbbbb" } := by
    rw [resp_receipt_some exampleLib exampleManager "callTx" _ _ _ _ _ _ _ 250000 40
      exampleReceipt example_callTx_decodes example_scan_call rfl rfl rfl]
    rfl
  exact ⟨_, hobj, (identity_fields exampleLib exampleManager "callTx" _ hobj).1, rfl, rfl, rfl⟩

/-- C10, refuted.  The amounts 67108864.00000001 and 67108864.00000002 are non-negative
decimals with 8 fractional digits, and both read as the same float64,
2^26 + 2^-26: on the example backend the two payloads come back with the same `Value`,
`0x17d78400000001`; and for no library, backend and way back from a `Value` to an amount
do both payloads round-trip, because `GettransactionResp` hands `QtumAmountToEthValue`
the float64 and nothing else of the amount. -/
theorem amount_roundtrip_fails :
    ParseFloat64 (6710886400000001 / 10 ^ 8) = .ok (2 ^ 26 + 1 / 2 ^ 26) ∧
    ParseFloat64 (6710886400000002 / 10 ^ 8) = .ok (2 ^ 26 + 1 / 2 ^ 26) ∧
    CarriesAmount exampleLib "bigTx1" (6710886400000001 / 10 ^ 8) ∧
    CarriesAmount exampleLib "bigTx2" (6710886400000002 / 10 ^ 8) ∧
    (GettransactionResp exampleLib exampleManager "bigTx1").obj.map (fun o => o.Value) =
      some "0x17d78400000001" ∧
    (GettransactionResp exampleLib exampleManager "bigTx2").obj.map (fun o => o.Value) =
      some "0x17d78400000001" ∧
    ¬ ∃ (J : Type) (L : Lib J ℚ) (m : Manager) (back : String → ℚ) (r1 r2 : RawMessage)
        (o1 o2 : TransactionResponse),
        CarriesAmount L r1 (6710886400000001 / 10 ^ 8) ∧
        CarriesAmount L r2 (6710886400000002 / 10 ^ 8) ∧
        (GettransactionResp L m r1).obj = some o1 ∧
        (GettransactionResp L m r2).obj = some o2 ∧
        back o1.Value = 6710886400000001 / 10 ^ 8 ∧
        back o2.Value = 6710886400000002 / 10 ^ 8 := by
  refine ⟨ParseFloat64_collision.1, ParseFloat64_collision.2, ⟨_, rfl, rfl⟩, ⟨_, rfl, rfl⟩,
    ?_, ?_, ?_⟩
  · rw [resp_no_descriptor exampleLib exampleManager "bigTx1" _ _ _ _ _
      example_bigTx1_decodes example_sendTx_no_match]
    rfl
  · rw [resp_no_descriptor exampleLib exampleManager "bigTx2" _ _ _ _ _
      example_bigTx2_decodes example_sendTx_no_match]
    rfl
  · rintro ⟨J, L, m, back, r1, r2, o1, o2, hc1, hc2, ho1, ho2, hb1, hb2⟩
    have v1 := value_of_carried_amount L m r1 _ _ o1 hc1 ParseFloat64_collision.1 ho1
    have v2 := value_of_carried_amount L m r2 _ _ o2 hc2 ParseFloat64_collision.2 ho2
    rw [v1] at v2
    simp only [Except.ok.injEq] at v2
    rw [v2, hb2] at hb1
    norm_num at hb1

/-- C10, amended.  For a non-negative decimal amount with at most 8 fractional digits
that is below 2^26 = 67108864, written `k / 10^8` with `k < 2^26 * 10^8`: the `Value` of
the object `GettransactionResp` returns is the result of `QtumAmountToEthValue` on the
float64 nearest to the amount; that float64 determines the amount, which is the decimal
with 8 fractional digits nearest to it; so the `Value` converts back to the amount
exactly under every way back that undoes `QtumAmountToEthValue` up to that rounding. -/
theorem amount_read_exact_below_two_pow_26 {J : Type} (L : Lib J ℚ) (m : Manager)
    (result : RawMessage) (k : ℕ) (obj : TransactionResponse)
    (hk : k < 2 ^ 26 * 10 ^ 8)
    (hamount : CarriesAmount L result ((k : ℚ) / 10 ^ 8))
    (hobj : (GettransactionResp L m result).obj = some obj) :
    L.QtumAmountToEthValue (float64Nearest ((k : ℚ) / 10 ^ 8)) = .ok obj.Value ∧
    amountOfFloat64 (float64Nearest ((k : ℚ) / 10 ^ 8)) = (k : ℚ) / 10 ^ 8 ∧
    ∀ back : String → ℚ,
      (∀ f v, L.QtumAmountToEthValue f = .ok v → back v = amountOfFloat64 f) →
      back obj.Value = (k : ℚ) / 10 ^ 8 := by
  have hlt : |(k : ℚ) / 10 ^ 8| < (2 : ℚ) ^ (1000 : ℤ) := by
    rw [abs_of_nonneg (by positivity), div_lt_iff₀ (by positivity)]
    have h1 : ((k : ℚ)) < ((2 ^ 26 * 10 ^ 8 : ℕ) : ℚ) := by exact_mod_cast hk
    push_cast at h1
    have h2 : (2 : ℚ) ^ (1000 : ℤ) = 2 ^ (1000 : ℕ) := by norm_num
    rw [h2]
    calc (k : ℚ) < 6710886400000000 := h1
      _ < 2 ^ (1000 : ℕ) * 10 ^ 8 := by norm_num
  have hv := value_of_carried_amount L m result _ _ obj hamount (ParseFloat64_ok _ hlt) hobj
  have hback := amountOfFloat64_float64Nearest k hk
  refine ⟨hv, hback, ?_⟩
  intro back hconv
  rw [hconv _ _ hv, hback]

/-- C10 amended, run on the example backend: the plain transfer carries the amount 1.5,
which is 150000000 / 10^8; it reads as the float64 1.5, comes back with the `Value`
`0x8f0d180`, and the float64 gives the amount back. -/
theorem amount_read_exact_below_two_pow_26_witness :
    (150000000 : ℕ) < 2 ^ 26 * 10 ^ 8 ∧
    CarriesAmount exampleLib "sendTx" (((150000000 : ℕ) : ℚ) / 10 ^ 8) ∧
    exampleLib.QtumAmountToEthValue (float64Nearest (((150000000 : ℕ) : ℚ) / 10 ^ 8)) =
      .ok "0x8f0d180" ∧
    amountOfFloat64 (float64Nearest (((150000000 : ℕ) : ℚ) / 10 ^ 8)) =
      ((150000000 : ℕ) : ℚ) / 10 ^ 8 := by
  have hk : (150000000 : ℕ) < 2 ^ 26 * 10 ^ 8 := by norm_num
  have hamount : CarriesAmount exampleLib "sendTx" (((150000000 : ℕ) : ℚ) / 10 ^ 8) := by
    refine ⟨_, rfl, ?_⟩
    show ParseFloat64 (150000000 / 10 ^ 8) = ParseFloat64 (((150000000 : ℕ) : ℚ) / 10 ^ 8)
    norm_num
  have hobj : (GettransactionResp exampleLib exampleManager "sendTx").obj =
      some { Hash := "0xbb22", BlockHash := "0xb10c", Value := "0x8f0d180" } := by
    rw [resp_no_descriptor exampleLib exampleManager "sendTx" _ _ _ _ _
      example_sendTx_decodes example_sendTx_no_match]
    rfl
  have h := amount_read_exact_below_two_pow_26 exampleLib exampleManager "sendTx" 150000000 _
    hk hamount hobj
  exact ⟨hk, hamount, h.1, h.2.1⟩

end Janus
